import Mathlib

/-!
Shallow embedding of the CI output protocol of `internal/environment/github.go`
(the `GitHubContext` type, its `SetOutput` / `CloseOutput` operations, the
`SHAShort` accessor, and the `newGitHubContext` constructor) together with
theorems about the encoding, drain, and fallback behaviour.

File-system effects (`os.OpenFile`, `WriteString`, `Sync`, the deferred
`Close`) are modelled by an oracle `FsOracle` giving the outcome of each call,
and `CloseOutput` returns, besides the updated context, the list of strings
appended to the destination file, an event trace, and the Go return error.
-/

/-- Modelled from the spec: the Output Value type (the `OutputWriter` interface
and the `OutputMap` alias are declared outside the provided sources; only their
use sites appear in `github.go`).  Per the spec an Output Value carries a raw
string payload, a `multiline` flag, a visible-on-stdout flag and a
visible-in-platform-file flag; `String()` returns the payload and `MultiLine()`
the multiline flag. -/
structure OutputWriter where
  payload : String
  multiline : Bool
  stdOut : Bool
  platformOut : Bool
deriving DecidableEq, Repr

/-- Go `type OutputMap = map[string]OutputWriter`, modelled as an association
list; Go map key-uniqueness is the predicate `UniqueKeys` below. -/
abbrev OutputMap := List (String × OutputWriter)

/-- Go `const EOF = "\n"` (github.go line 11). -/
def EOF : String := "\n"

/-- The `GitHubContext` struct (github.go lines 14-37).  The Go `output` map
field can be `nil`, modelled as `none`. -/
structure GitHubContext where
  runId : String
  runNumber : String
  commitSHA : String
  actor : String
  repository : String
  refName : String
  refType : String
  runnerTemp : String
  githubOutput : String
  output : Option OutputMap
  fileDelimeter : String
deriving DecidableEq, Repr

/-- Go `func (gh *GitHubContext) ID() string` (github.go lines 39-41). -/
def GitHubContext.ID (gh : GitHubContext) : String :=
  "gha-" ++ gh.runId ++ "-" ++ gh.runNumber

/-- Go `func (gh *GitHubContext) SHA() string` (github.go lines 43-45). -/
def GitHubContext.SHA (gh : GitHubContext) : String :=
  gh.commitSHA

/-- Go `func (gh *GitHubContext) SHAShort() string` (github.go lines 46-51).
Go `len` and byte slicing coincide with character count and `String.take`
on the ASCII hex strings commit SHAs are. -/
def GitHubContext.SHAShort (gh : GitHubContext) : String :=
  if gh.commitSHA.length > 7 then gh.commitSHA.take 7 else gh.commitSHA

/-- Whether the Go map (as an association list) has an entry for `k`. -/
def hasKey (m : OutputMap) (k : String) : Bool :=
  m.any (fun p => decide (p.1 = k))

/-- A single Go map assignment `m[k] = v`: replace the entry when the key is
present, append otherwise. -/
def mapSet (m : OutputMap) (k : String) (v : OutputWriter) : OutputMap :=
  if hasKey m k then m.map (fun p => if p.1 = k then (k, v) else p)
  else m ++ [(k, v)]

/-- Go `maps.Copy(dst, src)`: assign every entry of `src` into `dst`
(last-write-wins per key). -/
def mapsCopy (dst src : OutputMap) : OutputMap :=
  src.foldl (fun d p => mapSet d p.1 p.2) dst

/-- Go map invariant: each key appears at most once in the list. -/
def UniqueKeys (m : OutputMap) : Prop :=
  (m.map Prod.fst).Nodup

instance (m : OutputMap) : Decidable (UniqueKeys m) := by
  unfold UniqueKeys; infer_instance

/-- Go `func (gh *GitHubContext) SetOutput(output OutputMap)` (github.go lines
61-67): initialize the map when it is `nil`, then `maps.Copy` the argument
into it. -/
def GitHubContext.SetOutput (gh : GitHubContext) (output : OutputMap) :
    GitHubContext :=
  { gh with output := some (mapsCopy (gh.output.getD []) output) }

/-- The entries currently queued (`nil` map iterates as empty). -/
def GitHubContext.outputEntries (gh : GitHubContext) : OutputMap :=
  gh.output.getD []

/-- Go `strings.Contains(strValue, "\n")` (github.go line 96). -/
def containsNewline (s : String) : Bool :=
  s.data.any (fun c => c == '\n')

/-- The per-entry `outputLine` computation (github.go lines 95-107): a
heredoc-style block `key<<DELIM\npayload\nDELIM\n` when the value is flagged
multiline or the payload contains a newline, else the plain `key=payload\n`
line. -/
def encodeEntry (delim key : String) (v : OutputWriter) : String :=
  if v.multiline || containsNewline v.payload then
    key ++ "<<" ++ delim ++ EOF ++ v.payload ++ EOF ++ delim ++ EOF
  else
    key ++ "=" ++ v.payload ++ EOF

/-- The Go errors `CloseOutput` can return. -/
inductive CloseErr where
  | sinkUnavailable
  | openFailed
  | writeFailed (key : String)
  | syncFailed
  | closeFailed
deriving DecidableEq, Repr

/-- Outcomes of the file-system calls made by one `CloseOutput` invocation:
whether `os.OpenFile` succeeds, whether the `i`-th `WriteString` call
succeeds, and whether `Sync` and the deferred `Close` succeed. -/
structure FsOracle where
  openOk : Bool
  writeOk : Nat → Bool
  syncOk : Bool
  closeOk : Bool

/-- Trace events of one `CloseOutput` invocation, in call order. -/
inductive FsEvent where
  | opened
  | wrote (line : String)
  | synced
  | stdout (line : String)
  | closed
deriving DecidableEq, Repr

/-- The write loop of `CloseOutput` (github.go lines 89-116): encode and write
each entry in turn; on the first failing `WriteString` stop with a write
error (the remaining entries are abandoned).  Returns the lines actually
appended to the file and the error, if any. -/
def writeLoop (orac : FsOracle) (delim : String) :
    OutputMap → Nat → List String × Option CloseErr
  | [], _ => ([], none)
  | (k, v) :: rest, i =>
    if orac.writeOk i then
      let r := writeLoop orac delim rest (i + 1)
      (encodeEntry delim k v :: r.1, r.2)
    else
      ([], some (CloseErr.writeFailed k))

/-- Result of one `CloseOutput` invocation: the updated context, the event
trace, the lines appended to the destination file, the `::set-output` lines
printed to stdout, and the Go return value `retErr`. -/
structure CloseResult where
  ctx : GitHubContext
  events : List FsEvent
  written : List String
  stdoutLines : List String
  retErr : Option CloseErr
deriving Repr

/-- Go `func (gh *GitHubContext) CloseOutput() (retErr error)` (github.go lines
69-133).  Control flow translated clause by clause:
* empty `githubOutput` → return the "GITHUB_OUTPUT environment variable not
  set" error at once (lines 70-73), before the file is opened and before any
  state mutation;
* `os.OpenFile` failure → return that error (lines 75-79), no handle exists
  so the deferred close does not run;
* write-loop failure → the naked `return` (line 112) runs only the deferred
  `Close` (lines 80-85, which overwrites `retErr` when it fails); `Sync`,
  the stdout loop and the map reset (lines 119-131) are all skipped, so the
  output map keeps its entries;
* loop completion → `Sync` is attempted (its failure sets `retErr` since
  `retErr` is still nil here), the stdout loop prints each entry, the map is
  reset to a fresh empty map, and the deferred `Close` runs last (its
  failure overwrites `retErr`). -/
def CloseOutput (orac : FsOracle) (gh : GitHubContext) : CloseResult :=
  if gh.githubOutput = "" then
    { ctx := gh, events := [], written := [], stdoutLines := []
      retErr := some CloseErr.sinkUnavailable }
  else if orac.openOk = false then
    { ctx := gh, events := [], written := [], stdoutLines := []
      retErr := some CloseErr.openFailed }
  else
    match writeLoop orac gh.fileDelimeter gh.outputEntries 0 with
    | (lines, some e) =>
      { ctx := gh
        events := FsEvent.opened :: (lines.map FsEvent.wrote ++ [FsEvent.closed])
        written := lines
        stdoutLines := []
        retErr := if orac.closeOk then some e else some CloseErr.closeFailed }
    | (lines, none) =>
      let souts := gh.outputEntries.map
        (fun p => "::set-output name=" ++ p.1 ++ "::" ++ p.2.payload ++ "\n")
      { ctx := { gh with output := some [] }
        events := FsEvent.opened ::
          (lines.map FsEvent.wrote ++ [FsEvent.synced]
            ++ souts.map FsEvent.stdout ++ [FsEvent.closed])
        written := lines
        stdoutLines := souts
        retErr :=
          if orac.closeOk then
            (if orac.syncOk then none else some CloseErr.syncFailed)
          else some CloseErr.closeFailed }

/-- The `[WARN]` message logged when `GITHUB_OUTPUT` is unset (github.go
line 166). -/
def warnNoOutputVar : String :=
  "GITHUB_OUTPUT environment variable is not set. Outputs will not be available in GitHub Actions."

/-- Result of `newGitHubContext`: the constructed context plus the warnings
logged during construction. -/
structure NewCtxResult where
  ctx : GitHubContext
  warnings : List String
deriving Repr

/-- Go `func newGitHubContext(getenv GetEnv) *GitHubContext` (github.go lines
135-177).  `os.Getpid()` is passed in as `pid`.  When `GITHUB_OUTPUT` is
empty a warning is logged and the legacy `GITHUB_ENV` value is used as the
destination when it is non-empty; construction always succeeds. -/
def newGitHubContext (getenv : String → String) (pid : Nat) : NewCtxResult :=
  let runId := getenv "GITHUB_RUN_ID"
  let runNumber := getenv "GITHUB_RUN_NUMBER"
  let githubOutput := getenv "GITHUB_OUTPUT"
  let ctx0 : GitHubContext :=
    { runId := runId
      runNumber := runNumber
      commitSHA := getenv "GITHUB_SHA"
      actor := getenv "GITHUB_ACTOR"
      repository := getenv "GITHUB_REPOSITORY"
      refName := getenv "GITHUB_REF_NAME"
      refType := getenv "GITHUB_REF_TYPE"
      githubOutput := githubOutput
      runnerTemp := getenv "RUNNER_TEMP"
      output := some []
      fileDelimeter := "GHDELIM_" ++ runId ++ "_" ++ runNumber ++ "_" ++ toString pid }
  if ctx0.githubOutput = "" then
    let legacyEnv := getenv "GITHUB_ENV"
    if legacyEnv ≠ "" then
      { ctx := { ctx0 with githubOutput := legacyEnv }
        warnings := [warnNoOutputVar] }
    else
      { ctx := ctx0, warnings := [warnNoOutputVar] }
  else
    { ctx := ctx0, warnings := [] }

/-! ### Helper lemmas -/

/-- When every `WriteString` call succeeds, the write loop writes one encoded
line per entry, in order, and reports no error. -/
theorem writeLoop_allOk (orac : FsOracle) (delim : String)
    (hw : ∀ i, orac.writeOk i = true) :
    ∀ (entries : OutputMap) (i : Nat),
      writeLoop orac delim entries i
        = (entries.map (fun p => encodeEntry delim p.1 p.2), none) := by
  intro entries
  induction entries with
  | nil => intro i; rfl
  | cons p rest ih =>
    intro i
    obtain ⟨k, v⟩ := p
    simp [writeLoop, hw i, ih (i + 1)]

/-- A key absent from the map is absent from the filtered entries. -/
theorem filter_of_not_hasKey (m : OutputMap) (k : String)
    (h : hasKey m k = false) :
    m.filter (fun p => decide (p.1 = k)) = [] := by
  induction m with
  | nil => rfl
  | cons p rest ih =>
    simp only [hasKey, List.any_cons, Bool.or_eq_false_iff] at h
    have h2 := ih (by simpa [hasKey] using h.2)
    simp [List.filter_cons, h.1, h2]

/-- Rewriting the entry for `k` leaves entries with other keys untouched. -/
theorem map_setKey_of_not_mem (m : OutputMap) (k : String) (v : OutputWriter)
    (h : ∀ q ∈ m, q.1 ≠ k) :
    m.map (fun p => if p.1 = k then (k, v) else p) = m := by
  induction m with
  | nil => rfl
  | cons p rest ih =>
    simp only [List.map_cons]
    rw [if_neg (h p (by simp)), ih fun q hq => h q (by simp [hq])]

/-- Replacing the entry for a present key `k` in a map with unique keys leaves
exactly the single pair `(k, v)` among the entries for `k`. -/
theorem filter_map_setKey (k : String) (v : OutputWriter) :
    ∀ m : OutputMap, UniqueKeys m → hasKey m k = true →
      (m.map (fun p => if p.1 = k then (k, v) else p)).filter
        (fun p => decide (p.1 = k)) = [(k, v)] := by
  intro m
  induction m with
  | nil => intro _ h; simp [hasKey] at h
  | cons p rest ih =>
    intro hu h
    have hnd : p.1 ∉ rest.map Prod.fst ∧ (rest.map Prod.fst).Nodup := by
      have hu2 : ((p :: rest).map Prod.fst).Nodup := hu
      rw [List.map_cons] at hu2
      exact List.nodup_cons.mp hu2
    by_cases hpk : p.1 = k
    · have hrest : ∀ q ∈ rest, q.1 ≠ k := by
        intro q hq hqk
        apply hnd.1
        have hm : q.1 ∈ rest.map Prod.fst := List.mem_map_of_mem Prod.fst hq
        rwa [hqk, ← hpk] at hm
      have hfalse : hasKey rest k = false := by
        simp only [hasKey, List.any_eq_false, decide_eq_true_eq]
        exact hrest
      simp only [List.map_cons]
      rw [if_pos hpk, map_setKey_of_not_mem rest k v hrest]
      simp [List.filter_cons, filter_of_not_hasKey rest k hfalse]
    · have hrest2 : hasKey rest k = true := by
        simp only [hasKey, List.any_cons, Bool.or_eq_true, decide_eq_true_eq] at h
        rcases h with h1 | h1
        · exact absurd h1 hpk
        · simpa [hasKey] using h1
      simp only [List.map_cons]
      rw [if_neg hpk]
      simp only [List.filter_cons, decide_eq_false hpk]
      simpa using ih hnd.2 hrest2

/-- In a map with unique keys, after the assignment `m[k] = v` the entries for
`k` are exactly the single pair `(k, v)`. -/
theorem filter_mapSet (m : OutputMap) (k : String) (v : OutputWriter)
    (hu : UniqueKeys m) :
    (mapSet m k v).filter (fun p => decide (p.1 = k)) = [(k, v)] := by
  unfold mapSet
  by_cases h : hasKey m k = true
  · rw [if_pos h]
    exact filter_map_setKey k v m hu h
  · rw [if_neg h, List.filter_append,
      filter_of_not_hasKey m k (Bool.eq_false_iff.mpr h)]
    simp

/-- A payload none of whose characters is a line feed does not contain a
newline in the sense of `strings.Contains`. -/
theorem containsNewline_eq_false (s : String) (h : ∀ c ∈ s.data, c ≠ '\n') :
    containsNewline s = false := by
  simp only [containsNewline, List.any_eq_false, beq_iff_eq]
  exact h

/-- A payload with a line-feed character contains a newline in the sense of
`strings.Contains`. -/
theorem containsNewline_eq_true (s : String) (h : '\n' ∈ s.data) :
    containsNewline s = true := by
  simp only [containsNewline, List.any_eq_true, beq_iff_eq]
  exact ⟨'\n', h, rfl⟩

/-- The simple-form branch of the entry encoding (github.go line 106). -/
theorem encodeEntry_simple (delim key : String) (v : OutputWriter)
    (hm : v.multiline = false) (hn : containsNewline v.payload = false) :
    encodeEntry delim key v = key ++ "=" ++ v.payload ++ "\n" := by
  rw [encodeEntry, hm, hn]
  rfl

/-- The heredoc-block branch of the entry encoding (github.go lines 97-104). -/
theorem encodeEntry_block (delim key : String) (v : OutputWriter)
    (h : v.multiline = true ∨ containsNewline v.payload = true) :
    encodeEntry delim key v =
      key ++ "<<" ++ delim ++ "\n" ++ v.payload ++ "\n" ++ delim ++ "\n" := by
  rw [encodeEntry]
  rcases h with h | h
  · rw [h]; rfl
  · rw [h, Bool.or_true]; rfl

/-! ### Claim theorems -/

/-- C1: for every queued entry written by `CloseOutput`, if the payload has no
newline character and the multiline flag is false the emitted text is exactly
`key=payload\n`; otherwise it is exactly `key<<DELIM\n`, the payload
byte-for-byte, then `\nDELIM\n`, with `DELIM` the delimiter token of the context
and with no escaping or verification of the payload. -/
theorem closeOutput_entry_encoding (delim key : String) (v : OutputWriter) :
    ((∀ c ∈ v.payload.data, c ≠ '\n') → v.multiline = false →
        encodeEntry delim key v = key ++ "=" ++ v.payload ++ "\n") ∧
    ((v.multiline = true ∨ '\n' ∈ v.payload.data) →
        encodeEntry delim key v =
          key ++ "<<" ++ delim ++ "\n" ++ v.payload ++ "\n" ++ delim ++ "\n") := by
  constructor
  · intro h hm
    exact encodeEntry_simple delim key v hm (containsNewline_eq_false _ h)
  · intro h
    apply encodeEntry_block
    rcases h with h | h
    · exact Or.inl h
    · exact Or.inr (containsNewline_eq_true _ h)

/-- Witness for C1 at concrete entries: a single-line payload and a two-line
payload containing the delimiter lines verbatim. -/
theorem closeOutput_entry_encoding_witness :
    encodeEntry "GHDELIM_42_7_1" "status" ⟨"Success", false, true, true⟩
      = "status=Success\n" ∧
    encodeEntry "GHDELIM_42_7_1" "payload" ⟨"line1\nline2", false, false, true⟩
      = "payload<<GHDELIM_42_7_1\nline1\nline2\nGHDELIM_42_7_1\n" :=
  ⟨((closeOutput_entry_encoding "GHDELIM_42_7_1" "status"
        ⟨"Success", false, true, true⟩).1 (by decide) rfl).trans rfl,
   ((closeOutput_entry_encoding "GHDELIM_42_7_1" "payload"
        ⟨"line1\nline2", false, false, true⟩).2 (Or.inr (by decide))).trans rfl⟩

/-- C9: only the line-feed character counts as a line break when choosing the
encoding: a payload with carriage returns but no line feed, not flagged
multiline, is emitted in the simple `key=payload` single-line form with the
raw CR bytes embedded. -/
theorem closeOutput_carriage_return_single_line (delim key : String)
    (v : OutputWriter) (hr : '\r' ∈ v.payload.data)
    (hn : '\n' ∉ v.payload.data) (hm : v.multiline = false) :
    encodeEntry delim key v = key ++ "=" ++ v.payload ++ "\n" :=
  encodeEntry_simple delim key v hm
    (containsNewline_eq_false _ fun c hc he => hn (he ▸ hc))

/-- Witness for C9 at the payload `"a\rb"`. -/
theorem closeOutput_carriage_return_single_line_witness :
    encodeEntry "GHDELIM_42_7_1" "k" ⟨"a\rb", false, false, false⟩
      = "k=a\rb\n" :=
  (closeOutput_carriage_return_single_line "GHDELIM_42_7_1" "k"
    ⟨"a\rb", false, false, false⟩ (by decide) (by decide) rfl).trans rfl

/-- C7: the short SHA is the first 7 characters of the commit SHA when it is
longer than 7 characters, and the commit SHA itself unchanged otherwise. -/
theorem shaShort_spec (gh : GitHubContext) :
    (7 < gh.commitSHA.length → gh.SHAShort = gh.commitSHA.take 7) ∧
    (gh.commitSHA.length ≤ 7 → gh.SHAShort = gh.commitSHA) := by
  constructor
  · intro h
    rw [GitHubContext.SHAShort, if_pos h]
  · intro h
    rw [GitHubContext.SHAShort, if_neg (by omega)]

/-- A concrete context with a 16-character commit SHA. -/
def ghSHAlong : GitHubContext :=
  { runId := "42", runNumber := "7", commitSHA := "abcdef1234567890"
    actor := "octocat", repository := "octo/repo", refName := "main"
    refType := "branch", runnerTemp := "/tmp", githubOutput := "/out"
    output := some [], fileDelimeter := "GHDELIM_42_7_1" }

/-- A concrete context with a 3-character commit SHA. -/
def ghSHAshort3 : GitHubContext := { ghSHAlong with commitSHA := "abc" }

/-- Witness for C7 at the two examples given in the spec. -/
theorem shaShort_spec_witness :
    ghSHAlong.SHAShort = "abcdef1" ∧ ghSHAshort3.SHAShort = "abc" :=
  ⟨((shaShort_spec ghSHAlong).1 (by decide)).trans rfl,
   ((shaShort_spec ghSHAshort3).2 (by decide)).trans rfl⟩

/-- C10: merging an empty Output Set leaves the queued entries unchanged (and
the context literally unchanged when its map is non-nil), and `SetOutput`
on a nil internal map initializes the map rather than failing. -/
theorem setOutput_empty_merge (gh : GitHubContext) (out : OutputMap) :
    (gh.SetOutput []).outputEntries = gh.outputEntries ∧
    (gh.output ≠ none → gh.SetOutput [] = gh) ∧
    (gh.SetOutput out).output ≠ none := by
  refine ⟨rfl, ?_, by simp [GitHubContext.SetOutput]⟩
  intro h
  obtain ⟨m, hm⟩ := Option.ne_none_iff_exists'.mp h
  have hs : gh.SetOutput [] = { gh with output := some m } := by
    rw [GitHubContext.SetOutput, hm]
    rfl
  rw [hs, ← hm]

/-- A concrete context with one queued entry. -/
def ghOneEntry : GitHubContext :=
  { ghSHAlong with output := some [("k", ⟨"v", false, false, false⟩)] }

/-- Witness for C10: an empty merge on a context with a non-nil map is the
identity. -/
theorem setOutput_empty_merge_witness : ghOneEntry.SetOutput [] = ghOneEntry :=
  (setOutput_empty_merge ghOneEntry []).2.1 (by decide)

/-- Full characterization of `CloseOutput` when the destination is configured,
the file opens, and the write loop completes without error. -/
theorem closeOutput_complete_eq (orac : FsOracle) (gh : GitHubContext)
    (lines : List String)
    (hdest : gh.githubOutput ≠ "") (hopen : orac.openOk = true)
    (hw : writeLoop orac gh.fileDelimeter gh.outputEntries 0 = (lines, none)) :
    CloseOutput orac gh =
      { ctx := { gh with output := some [] }
        events := FsEvent.opened ::
          (lines.map FsEvent.wrote ++ [FsEvent.synced]
            ++ (gh.outputEntries.map
                (fun p => "::set-output name=" ++ p.1 ++ "::" ++ p.2.payload ++ "\n")).map
                FsEvent.stdout
            ++ [FsEvent.closed])
        written := lines
        stdoutLines := gh.outputEntries.map
          (fun p => "::set-output name=" ++ p.1 ++ "::" ++ p.2.payload ++ "\n")
        retErr :=
          if orac.closeOk then
            (if orac.syncOk then none else some CloseErr.syncFailed)
          else some CloseErr.closeFailed } := by
  have h2 : ¬ (orac.openOk = false) := by simp [hopen]
  rw [CloseOutput, if_neg hdest, if_neg h2, hw]

/-- Full characterization of `CloseOutput` when the destination is configured,
the file opens, and the write loop fails on some entry. -/
theorem closeOutput_writeFail_eq (orac : FsOracle) (gh : GitHubContext)
    (lines : List String) (e : CloseErr)
    (hdest : gh.githubOutput ≠ "") (hopen : orac.openOk = true)
    (hw : writeLoop orac gh.fileDelimeter gh.outputEntries 0 = (lines, some e)) :
    CloseOutput orac gh =
      { ctx := gh
        events := FsEvent.opened :: (lines.map FsEvent.wrote ++ [FsEvent.closed])
        written := lines
        stdoutLines := []
        retErr := if orac.closeOk then some e else some CloseErr.closeFailed } := by
  have h2 : ¬ (orac.openOk = false) := by simp [hopen]
  rw [CloseOutput, if_neg hdest, if_neg h2, hw]

/-- A context with no queued entries never has anything written to the file
by `CloseOutput`, on any branch. -/
theorem closeOutput_written_nil (orac : FsOracle) (gh : GitHubContext)
    (h : gh.outputEntries = []) :
    (CloseOutput orac gh).written = [] := by
  by_cases h1 : gh.githubOutput = ""
  · rw [CloseOutput, if_pos h1]
  · by_cases h2 : orac.openOk = false
    · rw [CloseOutput, if_neg h1, if_pos h2]
    · have hw : writeLoop orac gh.fileDelimeter gh.outputEntries 0 = ([], none) := by
        rw [h]
        rfl
      rw [CloseOutput, if_neg h1, if_neg h2, hw]

/-- The all-successful file-system oracle. -/
def oracleAllOk : FsOracle := ⟨true, fun _ => true, true, true⟩

/-- An oracle whose every `WriteString` call fails. -/
def oracleWriteFail : FsOracle := ⟨true, fun _ => false, true, true⟩

/-- A concrete context with no configured destination and one queued entry. -/
def ghNoDest : GitHubContext := { ghOneEntry with githubOutput := "" }

/-- A concrete context with no configured destination and an empty Output
Set. -/
def ghEmptyNoDest : GitHubContext :=
  { ghSHAlong with githubOutput := "", output := some [] }

/-- C8: when `CloseOutput` fails because no destination path is configured, it
returns the error before performing any mutation: the context (with its whole
Output Set) is unchanged and nothing is written. -/
theorem closeOutput_no_dest_no_mutation (orac : FsOracle) (gh : GitHubContext)
    (h : gh.githubOutput = "") :
    (CloseOutput orac gh).ctx = gh ∧
    (CloseOutput orac gh).written = [] ∧
    (CloseOutput orac gh).retErr = some CloseErr.sinkUnavailable := by
  rw [CloseOutput, if_pos h]
  exact ⟨rfl, rfl, rfl⟩

/-- Witness for C8 at a context with one queued entry and no destination. -/
theorem closeOutput_no_dest_no_mutation_witness :
    (CloseOutput oracleAllOk ghNoDest).ctx = ghNoDest ∧
    (CloseOutput oracleAllOk ghNoDest).written = [] ∧
    (CloseOutput oracleAllOk ghNoDest).retErr = some CloseErr.sinkUnavailable :=
  closeOutput_no_dest_no_mutation oracleAllOk ghNoDest rfl

/-- C3 counterexample: with no destination configured, `CloseOutput` on an
EMPTY Output Set does not succeed as a no-op — it still returns the
`SinkUnavailable` error, because github.go lines 70-73 test only whether the
destination is set, never whether the Output Set is empty. -/
theorem closeOutput_no_dest_empty_cex :
    (CloseOutput oracleAllOk ghEmptyNoDest).retErr ≠ none := by decide

/-- C3 (amended): with no destination path configured, `CloseOutput` fails
with the `SinkUnavailable` error regardless of whether the Output Set is
empty or non-empty, and writes nothing. -/
theorem closeOutput_no_dest_fails (orac : FsOracle) (gh : GitHubContext)
    (h : gh.githubOutput = "") :
    (CloseOutput orac gh).retErr = some CloseErr.sinkUnavailable ∧
    (CloseOutput orac gh).written = [] := by
  rw [CloseOutput, if_pos h]
  exact ⟨rfl, rfl⟩

/-- Witness for the amended C3 at the empty-set context. -/
theorem closeOutput_no_dest_fails_witness :
    (CloseOutput oracleAllOk ghEmptyNoDest).retErr
      = some CloseErr.sinkUnavailable ∧
    (CloseOutput oracleAllOk ghEmptyNoDest).written = [] :=
  closeOutput_no_dest_fails oracleAllOk ghEmptyNoDest rfl

/-- C2 counterexample: a mid-loop write failure is a return path that reaches
the drain step, yet the Output Set is NOT empty afterwards — the naked
`return` on write failure (github.go line 112) skips the map reset at line
131, so the queued entry survives. -/
theorem closeOutput_clear_cex :
    (CloseOutput oracleWriteFail ghOneEntry).ctx.outputEntries ≠ [] := by
  decide

/-- C2 (amended): after a `CloseOutput` call that reaches the drain step and
completes the write loop without a write error, the Output Set is empty on
return (even if `Sync` or the deferred `Close` fails), and a subsequent
`CloseOutput` with no new entries writes nothing to the file; after a
mid-loop write failure, however, the Output Set retains its entries
unchanged. -/
theorem closeOutput_clear_after_drain (orac : FsOracle) (gh : GitHubContext)
    (hdest : gh.githubOutput ≠ "") (hopen : orac.openOk = true) :
    ((writeLoop orac gh.fileDelimeter gh.outputEntries 0).2 = none →
        (CloseOutput orac gh).ctx.output = some [] ∧
        ∀ orac2 : FsOracle,
          (CloseOutput orac2 (CloseOutput orac gh).ctx).written = []) ∧
    (∀ e : CloseErr,
        (writeLoop orac gh.fileDelimeter gh.outputEntries 0).2 = some e →
        (CloseOutput orac gh).ctx = gh) := by
  constructor
  · intro hw2
    have hw : writeLoop orac gh.fileDelimeter gh.outputEntries 0
        = ((writeLoop orac gh.fileDelimeter gh.outputEntries 0).1, none) := by
      rw [← hw2]
    rw [closeOutput_complete_eq orac gh _ hdest hopen hw]
    exact ⟨rfl, fun orac2 => closeOutput_written_nil orac2 _ rfl⟩
  · intro e hw2
    have hw : writeLoop orac gh.fileDelimeter gh.outputEntries 0
        = ((writeLoop orac gh.fileDelimeter gh.outputEntries 0).1, some e) := by
      rw [← hw2]
    rw [closeOutput_writeFail_eq orac gh _ e hdest hopen hw]

/-- Witness for the amended C2: a successful drain of a one-entry context
clears the set, and running `CloseOutput` again writes nothing. -/
theorem closeOutput_clear_after_drain_witness :
    (CloseOutput oracleAllOk ghOneEntry).ctx.output = some [] ∧
    (CloseOutput oracleAllOk (CloseOutput oracleAllOk ghOneEntry).ctx).written
      = [] :=
  have h := (closeOutput_clear_after_drain oracleAllOk ghOneEntry
    (by decide) rfl).1 rfl
  ⟨h.1, h.2 oracleAllOk⟩

/-- C5: whenever the destination is configured and the file opens, the file
handle is closed on every exit path of `CloseOutput` (normal or error), and
`file.Sync` is attempted if and only if the write loop over all entries
completed without a write error. -/
theorem closeOutput_close_and_sync_discipline (orac : FsOracle)
    (gh : GitHubContext)
    (hdest : gh.githubOutput ≠ "") (hopen : orac.openOk = true) :
    FsEvent.closed ∈ (CloseOutput orac gh).events ∧
    (FsEvent.synced ∈ (CloseOutput orac gh).events ↔
      (writeLoop orac gh.fileDelimeter gh.outputEntries 0).2 = none) := by
  cases hcase : (writeLoop orac gh.fileDelimeter gh.outputEntries 0).2 with
  | none =>
    have hw : writeLoop orac gh.fileDelimeter gh.outputEntries 0
        = ((writeLoop orac gh.fileDelimeter gh.outputEntries 0).1, none) := by
      rw [← hcase]
    rw [closeOutput_complete_eq orac gh _ hdest hopen hw]
    constructor
    · simp
    · simp
  | some e =>
    have hw : writeLoop orac gh.fileDelimeter gh.outputEntries 0
        = ((writeLoop orac gh.fileDelimeter gh.outputEntries 0).1, some e) := by
      rw [← hcase]
    rw [closeOutput_writeFail_eq orac gh _ e hdest hopen hw]
    constructor
    · simp
    · simp

/-- Witness for C5 at a one-entry context under the all-successful oracle. -/
theorem closeOutput_close_and_sync_discipline_witness :
    FsEvent.closed ∈ (CloseOutput oracleAllOk ghOneEntry).events ∧
    (FsEvent.synced ∈ (CloseOutput oracleAllOk ghOneEntry).events ↔
      (writeLoop oracleAllOk ghOneEntry.fileDelimeter
        ghOneEntry.outputEntries 0).2 = none) :=
  closeOutput_close_and_sync_discipline oracleAllOk ghOneEntry (by decide) rfl

/-- The Go map assignment preserves key uniqueness. -/
theorem uniqueKeys_mapSet (m : OutputMap) (k : String) (v : OutputWriter)
    (hu : UniqueKeys m) : UniqueKeys (mapSet m k v) := by
  unfold mapSet
  by_cases h : hasKey m k = true
  · rw [if_pos h]
    have hkeys : (m.map (fun p => if p.1 = k then (k, v) else p)).map Prod.fst
        = m.map Prod.fst := by
      rw [List.map_map]
      apply List.map_congr_left
      intro p _
      by_cases hpk : p.1 = k
      · simp [hpk]
      · simp [hpk]
    unfold UniqueKeys
    rw [hkeys]
    exact hu
  · rw [if_neg h]
    have hk : k ∉ m.map Prod.fst := by
      intro hmem
      apply h
      simp only [hasKey, List.any_eq_true, decide_eq_true_eq]
      obtain ⟨p, hp, hp1⟩ := List.mem_map.mp hmem
      exact ⟨p, hp, hp1⟩
    unfold UniqueKeys
    rw [List.map_append, List.nodup_append]
    refine ⟨hu, List.nodup_singleton k, ?_⟩
    intro a ha hb
    have hak : a = k := by simpa using hb
    exact hk (hak ▸ ha)

/-- C4: merging entries via `SetOutput` is last-write-wins: after setting the
same key twice, the Output Set holds exactly one entry for that key, with the
last value set, and a fully successful drain emits exactly one encoded entry
per queued entry (hence exactly one for that key, reflecting the last
value). -/
theorem setOutput_last_write_wins (gh : GitHubContext) (k : String)
    (v1 v2 : OutputWriter) (orac : FsOracle)
    (hu : UniqueKeys gh.outputEntries)
    (hdest : gh.githubOutput ≠ "") (hopen : orac.openOk = true)
    (hwok : ∀ i, orac.writeOk i = true) :
    ((gh.SetOutput [(k, v1)]).SetOutput [(k, v2)]).outputEntries.filter
        (fun p => decide (p.1 = k)) = [(k, v2)] ∧
    (CloseOutput orac ((gh.SetOutput [(k, v1)]).SetOutput [(k, v2)])).written
      = ((gh.SetOutput [(k, v1)]).SetOutput [(k, v2)]).outputEntries.map
          (fun p => encodeEntry gh.fileDelimeter p.1 p.2) := by
  have hent : ((gh.SetOutput [(k, v1)]).SetOutput [(k, v2)]).outputEntries
      = mapSet (mapSet gh.outputEntries k v1) k v2 := rfl
  constructor
  · rw [hent]
    exact filter_mapSet _ k v2 (uniqueKeys_mapSet _ k v1 hu)
  · exact congrArg CloseResult.written
      (closeOutput_complete_eq orac ((gh.SetOutput [(k, v1)]).SetOutput [(k, v2)])
        _ hdest hopen
        (writeLoop_allOk orac gh.fileDelimeter hwok
          ((gh.SetOutput [(k, v1)]).SetOutput [(k, v2)]).outputEntries 0))

/-- The first value set for `status` in the C4 witness. -/
def vBad : OutputWriter := ⟨"Bad", false, true, true⟩

/-- The last value set for `status` in the C4 witness. -/
def vOk : OutputWriter := ⟨"Success", false, true, true⟩

/-- The C4 witness context after setting `status` twice. -/
def ghLww : GitHubContext :=
  (ghSHAlong.SetOutput [("status", vBad)]).SetOutput [("status", vOk)]

/-- Witness for C4: setting `status` twice leaves the single entry with the
last value, and the drain writes one line per entry. -/
theorem setOutput_last_write_wins_witness :
    ghLww.outputEntries.filter (fun p => decide (p.1 = "status"))
      = [("status", vOk)] ∧
    (CloseOutput oracleAllOk ghLww).written
      = ghLww.outputEntries.map
          (fun p => encodeEntry ghSHAlong.fileDelimeter p.1 p.2) :=
  setOutput_last_write_wins ghSHAlong "status" vBad vOk oracleAllOk
    (by decide) (by decide) rfl (fun _ => rfl)

/-- C6: at construction, when `GITHUB_OUTPUT` is empty a warning is emitted
and the legacy `GITHUB_ENV` value is used as the destination when it is
non-empty; when both are absent the context is still constructed, carrying no
usable destination; when `GITHUB_OUTPUT` is set it is used and no warning is
emitted. -/
theorem newGitHubContext_fallback (getenv : String → String) (pid : Nat) :
    (getenv "GITHUB_OUTPUT" = "" →
        warnNoOutputVar ∈ (newGitHubContext getenv pid).warnings ∧
        (getenv "GITHUB_ENV" ≠ "" →
          (newGitHubContext getenv pid).ctx.githubOutput
            = getenv "GITHUB_ENV") ∧
        (getenv "GITHUB_ENV" = "" →
          (newGitHubContext getenv pid).ctx.githubOutput = "")) ∧
    (getenv "GITHUB_OUTPUT" ≠ "" →
        (newGitHubContext getenv pid).warnings = [] ∧
        (newGitHubContext getenv pid).ctx.githubOutput
          = getenv "GITHUB_OUTPUT") := by
  constructor
  · intro h
    by_cases henv : getenv "GITHUB_ENV" = ""
    · simp [newGitHubContext, h, henv]
    · simp [newGitHubContext, h, henv]
  · intro h
    simp [newGitHubContext, h]

/-- An environment with `GITHUB_OUTPUT` unset and `GITHUB_ENV` set. -/
def getenvNoOut : String → String :=
  fun k => if k = "GITHUB_ENV" then "/envfile" else ""

/-- Witness for C6: with `GITHUB_OUTPUT` unset and `GITHUB_ENV` set, the
warning is emitted and the legacy value becomes the destination. -/
theorem newGitHubContext_fallback_witness :
    warnNoOutputVar ∈ (newGitHubContext getenvNoOut 99).warnings ∧
    (newGitHubContext getenvNoOut 99).ctx.githubOutput = "/envfile" :=
  ⟨((newGitHubContext_fallback getenvNoOut 99).1 (by decide)).1,
   (((newGitHubContext_fallback getenvNoOut 99).1 (by decide)).2.1
      (by decide)).trans rfl⟩
